import Mathlib

/-!
Verification of the MusicPi player core (`Main.py`, `update_display.py`).

The definitions below are a shallow embedding of the control logic of
`Main.py`: the rotary-encoder decoder, the multi-press button gesture
recognizer, track skipping, volume adjustment, the scrolling title
renderer and the battery-gauge reader.  Machine times (`time.time()`)
and float quantities are modelled as rationals; GPIO line levels as
naturals (0/1), exactly as Python's `GPIO.input` returns them.
-/

namespace MusicPi

/-- Discrete events emitted by the rotary-encoder decoder. -/
inductive Event where
  | stepClockwise
  | stepCounterClockwise
  deriving DecidableEq, Repr

/-- Playback actions dispatched from a button gesture. -/
inductive Action where
  | playPause
  | skipForward
  | skipBackward
  deriving DecidableEq, Repr

/-! ## Rotary-encoder rotation decoding (`check_encoder`, lines 264–316) -/

/-- The pattern match on a two-entry `last_states` buffer in
`check_encoder`: `[(1,1),(1,0)]` is a clockwise step and the buffer is
collapsed to `[last_states[-1]]`; `[(1,1),(0,1)]` is a counter-clockwise
step, same collapse; anything else leaves the buffer untouched and emits
nothing. -/
def detectStep (last_states : List (Nat × Nat)) :
    Option Event × List (Nat × Nat) :=
  match last_states with
  | [s0, s1] =>
    if s0 = (1, 1) ∧ s1 = (1, 0) then
      (some Event.stepClockwise, [s1])
    else if s0 = (1, 1) ∧ s1 = (0, 1) then
      (some Event.stepCounterClockwise, [s1])
    else
      (none, last_states)
  | _ => (none, last_states)

/-- The rotation-decoder portion of the per-tick state:
`last_a`, `last_b` and the `last_states` buffer. -/
structure EncSt where
  lastA : Nat
  lastB : Nat
  states : List (Nat × Nat)
  deriving DecidableEq, Repr

/-- The trim after an append in `check_encoder`: `pop(0)` whenever the
buffer holds more than two states. -/
def trimHist (l : List (Nat × Nat)) : List (Nat × Nat) :=
  if l.length > 2 then l.tail else l

/-- One tick of the rotation decoder in `check_encoder`: when the
sampled pair `(a, b)` differs from `(last_a, last_b)` it is appended to
`last_states`, the buffer is trimmed to its last two entries, and the
two-entry pattern check runs; otherwise nothing happens.
`last_a`/`last_b` always take the sampled values. -/
def encoderTick (st : EncSt) (a b : Nat) : EncSt × Option Event :=
  if a ≠ st.lastA ∨ b ≠ st.lastB then
    let res := detectStep (trimHist (st.states ++ [(a, b)]))
    (⟨a, b, res.2⟩, res.1)
  else
    (⟨a, b, st.states⟩, none)

/-! ## Button gesture classification (`check_encoder`, lines 348–360) -/

/-- Classification of a completed collection window in `check_encoder`:
`press_count == 1` → play/pause; `== 2 and playing` → skip forward;
`== 3 and playing` → skip backward; anything else is dropped. -/
def classifyGesture (press_count : Nat) (playing : Bool) : Option Action :=
  if press_count = 1 then some Action.playPause
  else if press_count = 2 ∧ playing = true then some Action.skipForward
  else if press_count = 3 ∧ playing = true then some Action.skipBackward
  else none

/-- Processing a completed window: dispatch the classified action and
reset `press_count` to 0 (line 360). -/
def processWindow (press_count : Nat) (playing : Bool) :
    Option Action × Nat :=
  (classifyGesture press_count playing, 0)

/-! ## Stale-gesture guard (`check_encoder`, lines 319–328) -/

/-- Arrival of a new button press (falling edge on `SW`): if more than
1.5 s passed since `last_press_time` the counter is zeroed first, then
the press is counted and `last_press_time` is updated. -/
def buttonPressArrival (press_count : Nat)
    (current_time last_press_time : ℚ) : Nat × ℚ :=
  let pc := if current_time - last_press_time > 3/2 then 0 else press_count
  (pc + 1, current_time)

/-! ## The blocking collection phase (`check_encoder`, lines 330–346)

The `while time.time() - timer_start < 0.8` loop is modelled as a run
over a finite list of loop iterations.  Each iteration carries the
clock value at the `while` condition check (`tCheck`), the sampled
button value (`sw`), and the clock value recorded when a press is
handled (`tPress`, the `time.time()` written into `last_press_time`
and `timer_start`). -/

/-- One iteration of the collection loop, as seen by the model. -/
structure LoopIter where
  tCheck : ℚ
  sw : Nat
  tPress : ℚ
  deriving DecidableEq, Repr

/-- Mutable state threaded through the collection loop:
`press_count`, `last_sw`, `timer_start`, `last_press_time`. -/
structure CollectSt where
  pressCount : Nat
  lastSw : Nat
  timerStart : ℚ
  lastPressTime : ℚ
  deriving DecidableEq, Repr

/-- The body of one collection-loop iteration: sample `new_sw`; on a
falling edge (`new_sw == 0 and last_sw == 1`) increment `press_count`
and restart the timer at `tPress`; in all cases `last_sw := new_sw`. -/
def collectBody (st : CollectSt) (it : LoopIter) : CollectSt :=
  if it.sw = 0 ∧ st.lastSw = 1 then
    ⟨st.pressCount + 1, it.sw, it.tPress, it.tPress⟩
  else
    ⟨st.pressCount, it.sw, st.timerStart, st.lastPressTime⟩

/-- The collection loop: consume iterations while
`tCheck - timer_start < 0.8`; the loop exits at the first check where
0.8 s have elapsed since `timer_start`, returning that check time.
`none` means the supplied iteration list ended with the loop still
running. -/
def collectRun : List LoopIter → CollectSt → CollectSt × Option ℚ
  | [], st => (st, none)
  | it :: rest, st =>
    if it.tCheck - st.timerStart < 4/5 then
      collectRun rest (collectBody st it)
    else
      (st, some it.tCheck)

/-! ## Track skipping (`skip_track`, lines 390–401) -/

/-- `skip_track`'s index/scroll update: `selected = (selected ± 1) %
len(songs)` with Python's nonnegative-remainder `%`, and
`scroll_position = 0`.  `n` is `len(songs)`. -/
def skip_track (forward : Bool) (selected : Int) (n : Nat) : Int × Nat :=
  if forward then
    ((selected + 1) % (n : Int), 0)
  else
    ((selected - 1) % (n : Int), 0)

/-! ## Volume adjustment (`check_encoder`, lines 285–288 and 305–308) -/

/-- Clockwise step while playing: `current_volume = min(1.0,
current_volume + 0.01)`. -/
def adjustVolumeUp (v : ℚ) : ℚ := min 1 (v + 1/100)

/-- Counter-clockwise step while playing: `current_volume = max(0.0,
current_volume - 0.01)`. -/
def adjustVolumeDown (v : ℚ) : ℚ := max 0 (v - 1/100)

/-- The volume handed to `pygame.mixer.music.set_volume`:
always `current_volume / 2`. -/
def deviceVolume (v : ℚ) : ℚ := v / 2

/-- A sequence of volume adjustments, `true` = +0.01, `false` = −0.01. -/
def runAdjust (adjusts : List Bool) (v : ℚ) : ℚ :=
  adjusts.foldl (fun acc up => if up then adjustVolumeUp acc else adjustVolumeDown acc) v

/-! ## Encoder-step dispatch (`check_encoder`, lines 285–292, 305–312) -/

/-- The state touched by an encoder-step dispatch. -/
structure PlayerSt where
  volume : ℚ
  selected : Int
  scroll : Nat
  deriving DecidableEq, Repr

/-- Dispatch of one recognized encoder step: while playing only the
volume moves (and the new volume is forwarded as `volume / 2`); while
not playing `scroll_position` is zeroed and `selected` moves modulo
`len(songs)`; `n` is `len(songs)`. -/
def encoderDispatch (playing : Bool) (ev : Event) (n : Nat)
    (st : PlayerSt) : PlayerSt :=
  match ev with
  | Event.stepClockwise =>
    if playing then
      { st with volume := adjustVolumeUp st.volume }
    else
      { st with scroll := 0, selected := (st.selected + 1) % (n : Int) }
  | Event.stepCounterClockwise =>
    if playing then
      { st with volume := adjustVolumeDown st.volume }
    else
      { st with scroll := 0, selected := (st.selected - 1) % (n : Int) }

/-! ## Battery reading (`read_battery`, lines 120–135) -/

/-- The byte-swap applied to each raw register word:
`((raw << 8) & 0xFF00) + (raw >> 8)`. -/
def swapBytes (raw : Nat) : Nat :=
  ((raw <<< 8) &&& 0xFF00) + (raw >>> 8)

/-- Voltage scaling: `raw * 1.25 / 1000 / 16` after the swap. -/
def voltageOf (raw : Nat) : ℚ := (swapBytes raw : ℚ) * (5/4) / 1000 / 16

/-- Capacity scaling: `raw / 256` after the swap. -/
def percentOf (raw : Nat) : ℚ := (swapBytes raw : ℚ) / 256

/-- `read_battery`: the two bus reads are modelled as
`Option (Nat × Nat)`; `none` is a raised exception anywhere inside the
`try`, for which the handler returns `(0.0, 0.0)`. -/
def read_battery : Option (Nat × Nat) → ℚ × ℚ
  | none => (0, 0)
  | some (rawV, rawC) => (voltageOf rawV, percentOf rawC)

/-- Swapping the two bytes of a 16-bit word, stated arithmetically:
low byte shifted up, high byte shifted down. -/
def byteSwap16 (raw : Nat) : Nat := (raw % 256) * 256 + raw / 256

/-! ## Scrolling title rendering (`display_update`, lines 205–222) -/

/-- The circular scrolling text: 15 characters taken from the track
name starting at `scroll_position`, each index reduced modulo the
name's length, accumulated left to right exactly as the `for i in
range(15)` loop builds `display_text`. -/
def buildScrollText (track : List Char) (pos : Nat) : List Char :=
  (List.range 15).foldl
    (fun acc i => acc ++ [track.getD ((pos + i) % track.length) ' ']) []

/-- The title-rendering branch: scroll only when the text width exceeds
`OLED_WIDTH - 30 = 98`; otherwise the full name is drawn. -/
def renderTitle (track : List Char) (text_width : ℚ) (pos : Nat) :
    List Char :=
  if text_width > 128 - 30 then buildScrollText track pos else track

/-- The scroll-advance step: when more than 0.3 s elapsed since
`last_scroll_time`, `scroll_position` advances by one modulo the name
length and the timestamp is refreshed. -/
def advanceScroll (trackLen : Nat) (pos : Nat)
    (current_time last_scroll_time : ℚ) : Nat × ℚ :=
  if current_time - last_scroll_time > 3/10 then
    ((pos + 1) % trackLen, current_time)
  else
    (pos, last_scroll_time)

/-! ## Helper lemmas -/

/-- A run of `k` clockwise volume steps from a volume in `[0,1]`
is the clamped sum. -/
theorem runAdjust_replicate_true (k : Nat) (v : ℚ) (hv0 : 0 ≤ v) (hv1 : v ≤ 1) :
    runAdjust (List.replicate k true) v = min 1 (v + k / 100) := by
  induction k generalizing v with
  | zero =>
    simp only [List.replicate, runAdjust, List.foldl_nil, Nat.cast_zero, zero_div, add_zero]
    exact (min_eq_right hv1).symm
  | succ n ih =>
    have step : runAdjust (List.replicate (n + 1) true) v =
        runAdjust (List.replicate n true) (adjustVolumeUp v) := by
      simp [runAdjust, List.replicate_succ]
    have h0 : (0:ℚ) ≤ adjustVolumeUp v := le_min (by norm_num) (by linarith)
    have h1 : adjustVolumeUp v ≤ 1 := min_le_left _ _
    rw [step, ih (adjustVolumeUp v) h0 h1]
    unfold adjustVolumeUp
    rcases le_total (v + 1/100) 1 with h | h
    · rw [min_eq_right h]
      congr 1
      push_cast
      ring
    · have hn : (0:ℚ) ≤ (n:ℚ)/100 := by positivity
      rw [min_eq_left h, min_eq_left (by linarith : (1:ℚ) ≤ 1 + (n:ℚ)/100),
        eq_comm, min_eq_left]
      push_cast
      linarith

/-- One volume adjustment keeps the volume inside `[0, 1]`. -/
theorem runAdjust_mem (l : List Bool) : ∀ v : ℚ, 0 ≤ v → v ≤ 1 →
    0 ≤ runAdjust l v ∧ runAdjust l v ≤ 1 := by
  induction l with
  | nil => exact fun v h0 h1 => ⟨h0, h1⟩
  | cons b t ih =>
    intro v h0 h1
    have hstep : runAdjust (b :: t) v =
        runAdjust t (if b then adjustVolumeUp v else adjustVolumeDown v) := rfl
    rw [hstep]
    cases b
    · exact ih _ (le_max_left _ _) (max_le (by norm_num) (by linarith))
    · exact ih _ (le_min (by norm_num) (by linarith)) (min_le_left _ _)

/-- Masking a left-shifted word with `0xFF00` keeps exactly the low
byte, moved up by eight bits. -/
theorem land_ff00 (x : Nat) : (x <<< 8) &&& 0xFF00 = (x % 256) * 256 := by
  have h0 : (0xFF00 : Nat) = (2 ^ 8 - 1) <<< 8 := by decide
  have h1 : (x % 256) * 256 = (x % 2 ^ 8) <<< 8 := by
    rw [Nat.shiftLeft_eq]; norm_num
  rw [h0, h1]
  apply Nat.eq_of_testBit_eq
  intro i
  simp only [Nat.testBit_and, Nat.testBit_shiftLeft, Nat.testBit_two_pow_sub_one,
    Nat.testBit_mod_two_pow]
  by_cases h : 8 ≤ i <;> by_cases h2 : i - 8 < 8 <;> simp [h, h2]

/-- The code's shift-and-mask formula is the arithmetic byte swap. -/
theorem swapBytes_eq (raw : Nat) : swapBytes raw = byteSwap16 raw := by
  unfold swapBytes byteSwap16
  rw [land_ff00, Nat.shiftRight_eq_div_pow]

/-! ## Claim theorems -/

/-- C2: a completed collection window dispatches PlayPause iff the
press count is 1, SkipForward iff it is 2 while playing, SkipBackward
iff it is 3 while playing, nothing in every other case (count 2 or 3
while paused, count 0, count ≥ 4), and the press counter is reset to 0
after the window is processed. -/
theorem gesture_classification (n : Nat) (p : Bool) :
    (classifyGesture n p = some Action.playPause ↔ n = 1)
    ∧ (classifyGesture n p = some Action.skipForward ↔ n = 2 ∧ p = true)
    ∧ (classifyGesture n p = some Action.skipBackward ↔ n = 3 ∧ p = true)
    ∧ (classifyGesture n p = none ↔
        ¬(n = 1 ∨ (n = 2 ∧ p = true) ∨ (n = 3 ∧ p = true)))
    ∧ (processWindow n p).2 = 0 := by
  unfold processWindow classifyGesture
  refine ⟨?_, ?_, ?_, ?_, rfl⟩ <;>
    split_ifs with h1 h2 h3 <;> simp_all

/-- Witness for C2 at concrete inputs. -/
theorem gesture_classification_witness :
    classifyGesture 1 false = some Action.playPause
    ∧ (processWindow 4 true).2 = 0 :=
  ⟨(gesture_classification 1 false).1.mpr rfl,
   (gesture_classification 4 true).2.2.2.2⟩

/-- C7: a button press arriving more than 1.5 s after the previous one
finds the counter zeroed before it is counted: the new window starts
with count 1 and `last_press_time` takes the new press time. -/
theorem stale_gesture (pc : Nat) (ct lpt : ℚ) (h : ct - lpt > 3/2) :
    buttonPressArrival pc ct lpt = (1, ct) := by
  simp [buttonPressArrival, h]

/-- Witness for C7: five accumulated presses, 2 s gap. -/
theorem stale_gesture_witness : buttonPressArrival 5 2 0 = (1, 2) :=
  stale_gesture 5 2 0 (by norm_num)

/-- C5: on a catalog of length `n > 0` with a valid selected index,
`skip_track` keeps the index in `[0, n)`, advances/retreats it modulo
`n`, resets the scroll position to 0, wraps `n-1 → 0` going forward
and `0 → n-1` going backward. -/
theorem skip_track_wraps (forward : Bool) (sel : Int) (n : Nat)
    (hn : 0 < n) (h0 : 0 ≤ sel) (h1 : sel < n) :
    (0 ≤ (skip_track forward sel n).1 ∧ (skip_track forward sel n).1 < n)
    ∧ (skip_track forward sel n).2 = 0
    ∧ (forward = true → (skip_track forward sel n).1 = (sel + 1) % (n : Int))
    ∧ (forward = false → (skip_track forward sel n).1 = (sel - 1) % (n : Int))
    ∧ (forward = true → sel = (n : Int) - 1 → (skip_track forward sel n).1 = 0)
    ∧ (forward = false → sel = 0 → (skip_track forward sel n).1 = (n : Int) - 1) := by
  have hn' : (0 : Int) < n := by exact_mod_cast hn
  have hne : (n : Int) ≠ 0 := by omega
  have hneg : ((0 : Int) - 1) % (n : Int) = (n : Int) - 1 := by
    conv_lhs =>
      rw [show (0 : Int) - 1 = ((n : Int) - 1) + (n : Int) * (-1) by ring]
    rw [Int.add_mul_emod_self_left, Int.emod_eq_of_lt (by omega) (by omega)]
  cases forward
  · refine ⟨⟨Int.emod_nonneg _ hne, Int.emod_lt_of_pos _ hn'⟩, rfl,
      ?_, fun _ => rfl, ?_, fun _ hs => ?_⟩
    · intro h; exact absurd h (by decide)
    · intro h; exact absurd h (by decide)
    · simp only [skip_track, if_neg (by decide : ¬(false = true))]
      rw [hs]
      exact hneg
  · refine ⟨⟨Int.emod_nonneg _ hne, Int.emod_lt_of_pos _ hn'⟩, rfl,
      fun _ => rfl, ?_, fun _ hs => ?_, ?_⟩
    · intro h; exact absurd h (by decide)
    · simp only [skip_track, if_pos rfl]
      rw [hs]
      simp
    · intro h; exact absurd h (by decide)

/-- Witness for C5: backward skip from index 0 of a 3-track catalog. -/
theorem skip_track_wraps_witness : (skip_track false 0 3).1 = (3 : Int) - 1 :=
  (skip_track_wraps false 0 3 (by norm_num) le_rfl (by norm_num)).2.2.2.2.2 rfl rfl

/-- C8: starting inside `[0,1]`, any sequence of ±0.01 adjustments
keeps the logical volume inside `[0,1]`; 150 increments from 0 clamp
at exactly 1; the volume forwarded to the mixer is always the logical
volume halved. -/
theorem volume_clamped (l : List Bool) (v : ℚ) (hv0 : 0 ≤ v) (hv1 : v ≤ 1) :
    (0 ≤ runAdjust l v ∧ runAdjust l v ≤ 1)
    ∧ deviceVolume (runAdjust l v) = runAdjust l v / 2
    ∧ runAdjust (List.replicate 150 true) 0 = 1 := by
  refine ⟨runAdjust_mem l v hv0 hv1, rfl, ?_⟩
  rw [runAdjust_replicate_true 150 0 le_rfl (by norm_num)]
  norm_num

/-- Witness for C8: one up- and one down-adjustment from volume 1/2. -/
theorem volume_clamped_witness :
    (0 ≤ runAdjust [true, false] (1/2) ∧ runAdjust [true, false] (1/2) ≤ 1)
    ∧ deviceVolume (runAdjust [true, false] (1/2)) = runAdjust [true, false] (1/2) / 2
    ∧ runAdjust (List.replicate 150 true) 0 = 1 :=
  volume_clamped [true, false] (1/2) (by norm_num) (by norm_num)

/-- C9: a successful gauge read returns the byte-swapped voltage word
scaled by 1.25/1000/16 and the byte-swapped capacity word divided by
256; a failed read returns exactly (0, 0).  `read_battery` is a total
function, so no exception reaches the caller. -/
theorem battery_reading_correct :
    (∀ rawV rawC, read_battery (some (rawV, rawC)) =
      ((byteSwap16 rawV : ℚ) * (5/4) / 1000 / 16, (byteSwap16 rawC : ℚ) / 256))
    ∧ read_battery none = (0, 0) := by
  refine ⟨fun rawV rawC => ?_, rfl⟩
  simp [read_battery, voltageOf, percentOf, swapBytes_eq]

/-- C10: while playing, a recognized encoder step leaves the selected
index and the scroll position untouched; while paused, it leaves the
volume untouched and zeroes the scroll position; no single step moves
both the volume and the selection. -/
theorem dispatch_frame (p : Bool) (ev : Event) (n : Nat) (st : PlayerSt) :
    (p = true → (encoderDispatch p ev n st).selected = st.selected
      ∧ (encoderDispatch p ev n st).scroll = st.scroll)
    ∧ (p = false → (encoderDispatch p ev n st).volume = st.volume
      ∧ (encoderDispatch p ev n st).scroll = 0)
    ∧ ¬((encoderDispatch p ev n st).volume ≠ st.volume
        ∧ (encoderDispatch p ev n st).selected ≠ st.selected) := by
  cases p <;> cases ev <;> simp [encoderDispatch]

/-- Witness for C10: clockwise step while playing. -/
theorem dispatch_frame_witness :
    (encoderDispatch true Event.stepClockwise 3 ⟨1/2, 1, 7⟩).selected =
      (⟨1/2, 1, 7⟩ : PlayerSt).selected
    ∧ (encoderDispatch true Event.stepClockwise 3 ⟨1/2, 1, 7⟩).scroll =
      (⟨1/2, 1, 7⟩ : PlayerSt).scroll :=
  (dispatch_frame true Event.stepClockwise 3 ⟨1/2, 1, 7⟩).1 rfl

/-- C1: a two-entry history `[(1,1),(1,0)]` yields exactly one
clockwise step and collapses to `[(1,0)]`; `[(1,1),(0,1)]` yields
exactly one counter-clockwise step and collapses to `[(0,1)]`; every
other two-entry history yields no event and is left unchanged; and a
tick whose sample changes the lines applies exactly this check to the
appended, trimmed history. -/
theorem rotation_decoding (h : List (Nat × Nat)) (st : EncSt) (a b : Nat) :
    detectStep [(1,1),(1,0)] = (some Event.stepClockwise, [(1,0)])
    ∧ detectStep [(1,1),(0,1)] = (some Event.stepCounterClockwise, [(0,1)])
    ∧ (h.length = 2 → h ≠ [(1,1),(1,0)] → h ≠ [(1,1),(0,1)] →
        detectStep h = (none, h))
    ∧ ((a ≠ st.lastA ∨ b ≠ st.lastB) →
        encoderTick st a b =
          ((⟨a, b, (detectStep (trimHist (st.states ++ [(a, b)]))).2⟩ : EncSt),
           (detectStep (trimHist (st.states ++ [(a, b)]))).1)) := by
  refine ⟨rfl, rfl, ?_, ?_⟩
  · intro hlen hne1 hne2
    match h, hlen with
    | [s0, s1], _ =>
      simp only [detectStep]
      split_ifs with h1 h2 <;> simp_all
  · intro hc
    unfold encoderTick
    rw [if_pos hc]

/-- Witness for C1: an unrecognized two-entry history, and a sequence
tick that completes the clockwise pattern. -/
theorem rotation_decoding_witness :
    detectStep [(0,0),(1,1)] = (none, [(0,0),(1,1)])
    ∧ encoderTick ⟨1, 1, [(1,1)]⟩ 1 0 = (⟨1, 0, [(1,0)]⟩, some Event.stepClockwise) := by
  constructor
  · exact (rotation_decoding [(0,0),(1,1)] ⟨1, 1, [(1,1)]⟩ 1 0).2.2.1
      (by decide) (by decide) (by decide)
  · exact ((rotation_decoding [(0,0),(1,1)] ⟨1, 1, [(1,1)]⟩ 1 0).2.2.2
      (Or.inr (by decide))).trans (by decide)

/-- An all-low button line never increments the counter once
`last_sw` is low. -/
theorem collectRun_low_const (iters : List LoopIter) : ∀ st : CollectSt,
    (∀ it ∈ iters, it.sw = 0) → st.lastSw ≠ 1 →
    (collectRun iters st).1.pressCount = st.pressCount := by
  induction iters with
  | nil => intro st _ _; rfl
  | cons it rest ih =>
    intro st hall hsw
    unfold collectRun
    split_ifs with hcond
    · have hbody : collectBody st it =
          ⟨st.pressCount, it.sw, st.timerStart, st.lastPressTime⟩ := by
        unfold collectBody
        rw [if_neg]
        rintro ⟨-, h1⟩
        exact hsw h1
      rw [hbody]
      have hsw0 : it.sw = 0 := hall it (List.mem_cons_self _ _)
      exact ih _ (fun x hx => hall x (List.mem_cons_of_mem _ hx))
        (by simp [hsw0])
    · rfl

/-- C4: inside the collection loop the counter moves only on falling
edges — an iteration increments it exactly when the sample is 0 and
the tracked previous value was 1 — so a line held continuously low
through the window adds at most one to the counter. -/
theorem falling_edge_counting (iters : List LoopIter) (st : CollectSt) :
    ((∀ it ∈ iters, it.sw = 0) →
      (collectRun iters st).1.pressCount ≤ st.pressCount + 1)
    ∧ (∀ it, (collectBody st it).pressCount = st.pressCount + 1
        ↔ (it.sw = 0 ∧ st.lastSw = 1))
    ∧ (∀ it, ¬(it.sw = 0 ∧ st.lastSw = 1) →
        (collectBody st it).pressCount = st.pressCount) := by
  refine ⟨?_, ?_, ?_⟩
  · intro hall
    cases iters with
    | nil => simp [collectRun]
    | cons it rest =>
      unfold collectRun
      split_ifs with hcond
      · have hlow : ∀ x ∈ rest, x.sw = 0 :=
          fun x hx => hall x (List.mem_cons_of_mem _ hx)
        have hsw0 : it.sw = 0 := hall it (List.mem_cons_self _ _)
        by_cases hp : it.sw = 0 ∧ st.lastSw = 1
        · have hbody : collectBody st it =
              ⟨st.pressCount + 1, it.sw, it.tPress, it.tPress⟩ := by
            unfold collectBody; rw [if_pos hp]
          rw [hbody, collectRun_low_const rest _ hlow (by simp [hsw0])]
        · have hbody : collectBody st it =
              ⟨st.pressCount, it.sw, st.timerStart, st.lastPressTime⟩ := by
            unfold collectBody; rw [if_neg hp]
          rw [hbody, collectRun_low_const rest _ hlow (by simp [hsw0])]
          exact Nat.le_succ _
      · simp
  · intro it
    unfold collectBody
    split_ifs with hp <;> simp [hp]
  · intro it hp
    unfold collectBody
    rw [if_neg hp]

/-- Witness for C4: two all-low iterations starting from count 1. -/
theorem falling_edge_counting_witness :
    (collectRun [⟨1/10, 0, 1/5⟩, ⟨3/10, 0, 2/5⟩] ⟨1, 1, 0, 0⟩).1.pressCount
      ≤ (⟨1, 1, 0, 0⟩ : CollectSt).pressCount + 1 :=
  (falling_edge_counting [⟨1/10, 0, 1/5⟩, ⟨3/10, 0, 2/5⟩] ⟨1, 1, 0, 0⟩).1
    (by decide)

/-- C3 counterexample: a collection phase started at time 0
(`timer_start = 0`) with an additional press sampled at 0.41 s keeps
looping past the 0.8 s mark (a check at 1.05 s stays inside the loop)
and only exits at the 1.28 s check — the phase lasted more than 0.8 s
in total, because the in-window press reset `timer_start` and thereby
extended the window. -/
theorem collection_window_counterexample :
    (collectRun
        [⟨23/100, 0, 41/100⟩, ⟨16/25, 1, 0⟩, ⟨21/20, 1, 0⟩, ⟨32/25, 1, 0⟩]
        ⟨1, 1, 0, 0⟩).2 = some (32/25)
    ∧ ¬((32/25 : ℚ) - 0 ≤ 4/5) := by
  constructor
  · norm_num [collectRun, collectBody]
  · norm_num

/-- C3 amended: the collection phase ends only at a check finding at
least 0.8 s elapsed since the most recent timer restart, and each
detected in-window press restarts the timer at its press time — so
additional presses extend the phase, whose total length may exceed
0.8 s, while in-window inactivity never ends it early. -/
theorem collection_window_amended (iters : List LoopIter) :
    ∀ (st st' : CollectSt) (t : ℚ), collectRun iters st = (st', some t) →
    t - st'.timerStart ≥ 4/5
    ∧ (∀ it, it.sw = 0 ∧ st.lastSw = 1 →
        (collectBody st it).timerStart = it.tPress) := by
  induction iters with
  | nil =>
    intro st st' t h
    exact absurd h (by simp [collectRun])
  | cons it rest ih =>
    intro st st' t h
    refine ⟨?_, fun x hx => by unfold collectBody; rw [if_pos hx]⟩
    unfold collectRun at h
    split_ifs at h with hcond
    · exact (ih _ _ _ h).1
    · injection h with ha hb
      injection hb with hb
      subst ha hb
      exact not_lt.mp hcond

/-- Witness for C3's amended theorem: a phase with no additional press
exits at its first out-of-window check. -/
theorem collection_window_amended_witness :
    (9/10 : ℚ) - (⟨1, 1, 0, 0⟩ : CollectSt).timerStart ≥ 4/5 :=
  (collection_window_amended [⟨9/10, 1, 0⟩] ⟨1, 1, 0, 0⟩ ⟨1, 1, 0, 0⟩ (9/10)
    (by norm_num [collectRun])).1

/-- Appending one mapped element at a time is a map. -/
theorem foldl_push_eq_map {α β : Type} (f : α → β) (l : List α) :
    ∀ acc : List β, l.foldl (fun a i => a ++ [f i]) acc = acc ++ l.map f := by
  induction l with
  | nil => intro acc; simp
  | cons x t ih => intro acc; simp [ih]

/-- The `for i in range(15)` accumulation is pointwise circular
indexing. -/
theorem buildScrollText_eq (track : List Char) (pos : Nat) :
    buildScrollText track pos =
      (List.range 15).map (fun i => track.getD ((pos + i) % track.length) ' ') := by
  unfold buildScrollText
  rw [foldl_push_eq_map]
  simp

/-- C6: when the title's rendered width exceeds the display width
minus the battery area, the rendered title is exactly the 15
characters `name[(p+i) mod L]`, `i = 0..14`, and the scroll position
advances by one modulo `L` whenever more than 0.3 s elapsed since the
last advance. -/
theorem scroll_render (track : List Char) (w : ℚ) (pos : Nat)
    (hne : track ≠ []) (hpos : pos < track.length) (hw : w > 128 - 30) :
    (renderTitle track w pos).length = 15
    ∧ (∀ i, i < 15 → (renderTitle track w pos).getD i ' ' =
        track.getD ((pos + i) % track.length) ' ')
    ∧ (∀ t lst : ℚ, t - lst > 3/10 →
        advanceScroll track.length pos t lst = ((pos + 1) % track.length, t)) := by
  have hr : renderTitle track w pos = buildScrollText track pos := by
    unfold renderTitle
    rw [if_pos hw]
  refine ⟨?_, ?_, fun t lst h => by simp [advanceScroll, h]⟩
  · rw [hr, buildScrollText_eq]
    simp
  · intro i hi
    rw [hr, buildScrollText_eq]
    rw [List.getD_eq_getElem?_getD, List.getElem?_map, List.getElem?_range hi]
    rfl

/-- The 22-character sample title from the specification's example. -/
def sampleTrack : List Char := "LongTrackTitleNameHere".toList

/-- Witness for C6 at the specification's example: length-22 title,
scroll position 20. -/
theorem scroll_render_witness : (renderTitle sampleTrack 120 20).length = 15 :=
  (scroll_render sampleTrack 120 20 (by decide) (by decide) (by norm_num)).1

end MusicPi
